import Mathlib

/-!
Verification of the PWAscore compatibility-resolution and scoring engine.

This file gives a shallow embedding, in Lean, of the core logic of the
PWAscore repository:

* `src/app/utils/canIUseLoader.ts` — the status-code parser (`parseStatus`),
  the semantic version comparator (`compareVersions`), the tabular-dataset
  version-column search (`findBrowserVersion`), the tabular resolver
  (`getCanIUseSupport`), and the hierarchical (MDN BCD) resolver
  (`isVersionSupported`, `navigateMdnBcdPath`, `getMdnBcdSupport`);
* `src/app/composables/useBrowserScore.ts` — the two-tier score calculator
  (`shouldExcludeFromPrimaryScore`, `calculateBrowserScore`);
* `src/app/composables/useBrowserSupport.ts` — the synchronous cache read
  (`getSupport`) and, modelled from the specification where the newest
  revision's source is absent from the tree, the support aggregator
  (`loadSupport`).

Modelling conventions:

* A JavaScript string is embedded as `Str := List Char`; the handful of
  string operations the source uses (`split`, `trim`, `toLowerCase`,
  `charAt`, `includes`, `startsWith`) are defined below on `Str`, following
  ECMAScript semantics for the inputs that occur.
* JavaScript numbers are embedded as `Int` where the source only ever
  forms integer values (`parseInt`, the comparator's return value) and as
  exact rationals where fractional values occur (`parseFloat`, score
  arithmetic).  The rationals are carried as explicit
  numerator/denominator pairs (`JsNum`, denominator positive by
  construction) so that every operation is a structural computation; a
  `NaN` produced by a failed parse is `none` of an `Option`.
* A JavaScript object used as a string-keyed record is an association
  list `List (Str × α)`; `Object.entries` order is the list order.
* Asynchronous code is embedded by explicit state passing; a fallible
  dataset load is an `Except Unit` value, and a `try`/`catch` whose only
  fallible step is that load becomes a `match` on it.
-/

/-- A JavaScript string, embedded as its list of characters. -/
abbrev Str := List Char

/-- Shorthand for turning a Lean string literal into the embedded type. -/
def str (s : String) : Str := s.data

/-- The four-valued support taxonomy
(`SupportLevel` in `useBrowserSupport.ts`).  The source's level literal
`'partial'` is rendered `partialSupport` because `partial` is reserved in
Lean. -/
inductive SupportLevel where
  | supported
  | partialSupport
  | notSupported
  | unknown
deriving DecidableEq, Repr

/-- JavaScript whitespace test for the characters that occur in the data
(`String.prototype.trim` strips these). -/
def jsWs (c : Char) : Bool := c.isWhitespace

/-- Drop trailing whitespace, the second half of `String.prototype.trim`. -/
def dropTrailingWs : Str → Str
  | [] => []
  | c :: cs =>
    match dropTrailingWs cs with
    | [] => if jsWs c then [] else [c]
    | r => c :: r

/-- Embedding of `String.prototype.trim`. -/
def jsTrim (s : Str) : Str := dropTrailingWs (s.dropWhile jsWs)

/-- Embedding of `String.prototype.toLowerCase` (the data is ASCII). -/
def jsToLower (s : Str) : Str := s.map Char.toLower

/-- Embedding of `String.prototype.split` with a single-character separator: splits at
every occurrence, keeping empty pieces, and always returns at least one
piece. -/
def splitOnChar (sep : Char) : Str → List Str
  | [] => [[]]
  | c :: cs =>
    if c = sep then [] :: splitOnChar sep cs
    else
      match splitOnChar sep cs with
      | [] => [[c]]
      | p :: ps => (c :: p) :: ps

/-- Numeric value of a maximal leading run of decimal digits;
`none` when there is no leading digit (the `NaN` case). -/
def digitsVal (s : Str) : Option Nat :=
  let ds := s.takeWhile Char.isDigit
  if ds.isEmpty then none
  else some (ds.foldl (fun a c => a * 10 + (c.toNat - 48)) 0)

/-- Embedding of `Number.parseInt(s, 10)`: skip whitespace, optional sign, then leading
decimal digits; `none` models `NaN`. -/
def parseIntJs (s : Str) : Option Int :=
  match s.dropWhile jsWs with
  | '-' :: r => (digitsVal r).map (fun n => -(n : Int))
  | '+' :: r => (digitsVal r).map (fun n => (n : Int))
  | r => (digitsVal r).map (fun n => (n : Int))

/-- An exact rational value of a JavaScript number, as a
numerator/denominator pair.  Every constructor below produces a positive
denominator, which the comparison operations assume. -/
structure JsNum where
  num : Int
  den : Int
deriving DecidableEq, Repr

/-- Embed an integer-valued JavaScript number. -/
def JsNum.ofInt (n : Int) : JsNum := ⟨n, 1⟩

/-- Addition of exact JavaScript numbers. -/
def JsNum.add (a b : JsNum) : JsNum := ⟨a.num * b.den + b.num * a.den, a.den * b.den⟩

/-- Multiplication of exact JavaScript numbers. -/
def JsNum.mul (a b : JsNum) : JsNum := ⟨a.num * b.num, a.den * b.den⟩

/-- Division of exact JavaScript numbers (the source only divides by
values it has checked to be positive). -/
def JsNum.div (a b : JsNum) : JsNum := ⟨a.num * b.den, a.den * b.num⟩

/-- Comparison `a ≤ b` for exact JavaScript numbers with positive denominators. -/
def JsNum.le (a b : JsNum) : Bool := a.num * b.den ≤ b.num * a.den

/-- Comparison `a < b` for exact JavaScript numbers with positive denominators. -/
def JsNum.lt (a b : JsNum) : Bool := a.num * b.den < b.num * a.den

/-- Embedding of `Math.round`: round half up, `⌊q + 1/2⌋`, for a positive
denominator. -/
def jsRound (q : JsNum) : Int := Int.fdiv (2 * q.num + q.den) (2 * q.den)

/-- Embedding of `Number.parseFloat`: skip whitespace, optional sign, decimal digits
with at most one point; at least one digit is required (`none` models
`NaN`).  The exponent form never occurs in version strings and is not
modelled.  The numeric value is embedded exactly. -/
def parseFloatJs (s : Str) : Option JsNum :=
  let afterWs := s.dropWhile jsWs
  let core : Str → Option JsNum := fun t =>
    let intDs := t.takeWhile Char.isDigit
    let rest := t.drop intDs.length
    let fracDs : Str :=
      match rest with
      | '.' :: r => r.takeWhile Char.isDigit
      | _ => []
    if intDs.isEmpty ∧ fracDs.isEmpty then none
    else
      let intVal : Int := (intDs.foldl (fun a c => a * 10 + (c.toNat - 48)) 0 : Nat)
      let fracVal : Int := (fracDs.foldl (fun a c => a * 10 + (c.toNat - 48)) 0 : Nat)
      let scale : Int := ((10 ^ fracDs.length : Nat) : Int)
      some ⟨intVal * scale + fracVal, scale⟩
  match afterWs with
  | '-' :: r => (core r).map (fun q => ⟨-q.num, q.den⟩)
  | '+' :: r => core r
  | r => core r

/-- First-match association-list lookup, embedding property access on a
string-keyed JavaScript object. -/
def alistLookup {α : Type} (m : List (Str × α)) (k : Str) : Option α :=
  match m with
  | [] => none
  | (k', v) :: rest => if k' = k then some v else alistLookup rest k

/-- Truthiness of a possibly-absent string: `undefined` and `""` are
falsy. -/
def jsTruthyStr : Option Str → Bool
  | some s => !s.isEmpty
  | none => false

/-- From `canIUseLoader.ts`, `parseStatus`: maps a CanIUse status code to a
`SupportLevel`.  Falsy input (absent or empty) is `unknown`; otherwise the
code is lowercased, trimmed, and only its first character is read. -/
def parseStatus (status : Option Str) : SupportLevel :=
  match status with
  | none => .unknown
  | some s =>
    if s.isEmpty then .unknown
    else
      let normalized := jsTrim (jsToLower s)
      match normalized with
      | [] => .unknown
      | mainStatus :: _ =>
        if mainStatus = 'y' then .supported
        else if mainStatus = 'a' then .partialSupport
        else if mainStatus = 'n' ∨ mainStatus = 'u' then .notSupported
        else if mainStatus = 'p' ∨ mainStatus = 'x' then .partialSupport
        else .unknown

/-- The comparator's mapping of one dot-separated segment to a number:
wildcards and unparsable segments count as `0`. -/
def segVal (part : Str) : Int :=
  if part = ['x'] ∨ part = ['*'] then 0
  else
    match parseIntJs part with
    | none => 0
    | some n => n

/-- The comparator's segment loop once one side is exhausted (padded with
zeros): the first non-zero remaining segment decides. -/
def cmpRest : List Int → Int
  | [] => 0
  | x :: xs => if x = 0 then cmpRest xs else x

/-- The comparator's left-to-right segment loop: the shorter sequence is
padded with zeros, and the first differing position decides (returning the
difference, exactly as the source's early `return aVal - bVal`). -/
def cmpSegs : List Int → List Int → Int
  | [], ys => -(cmpRest ys)
  | x :: xs, [] => cmpRest (x :: xs)
  | x :: xs, y :: ys => if x = y then cmpSegs xs ys else x - y

/-- Deterministic model of `String.prototype.localeCompare` restricted to
what the comparator needs: a three-valued code-point comparison. -/
def lexCmp : Str → Str → Int
  | [], [] => 0
  | [], _ :: _ => -1
  | _ :: _, [] => 1
  | x :: xs, y :: ys => if x = y then lexCmp xs ys else if x < y then -1 else 1

/-- Split a version string at `-`: the version part (replaced by `"0"`
when empty, the source's `aSplit[0] || '0'`) and the piece after the first
`-` when present (the source's `aSplit[1]`; later pieces are ignored). -/
def splitDash (s : Str) : Str × Option Str :=
  match splitOnChar '-' s with
  | [] => (['0'], none)
  | v :: rest => ((if v.isEmpty then ['0'] else v), rest.head?)

/-- From `canIUseLoader.ts`, `compareVersions`: semantic three-way comparison of
version strings.  Negative when `a < b`, zero when equal, positive when
`a > b`.  The source's index loop over the padded segment arrays is
rendered by the recursion `cmpSegs`; the trailing pre-release comparison
is reached exactly when no segment pair differed, i.e. when `cmpSegs`
returns `0`. -/
def compareVersions (a b : Str) : Int :=
  let aS := splitDash a
  let bS := splitDash b
  let aParts := (splitOnChar '.' aS.1).map segVal
  let bParts := (splitOnChar '.' bS.1).map segVal
  let c := cmpSegs aParts bParts
  if c ≠ 0 then c
  else
    let aHas : Bool := match aS.2 with | some p => !p.isEmpty | none => false
    let bHas : Bool := match bS.2 with | some p => !p.isEmpty | none => false
    if !aHas && bHas then 1
    else if aHas && !bHas then -1
    else if aHas && bHas then lexCmp (aS.2.getD []) (bS.2.getD [])
    else 0

/-- Status flags of a feature as exposed by the resolvers
(`FeatureStatus` in `canIUseLoader.ts`). -/
structure FeatureStatus where
  experimental : Bool
  standard_track : Bool
  deprecated : Bool
deriving DecidableEq, Repr

/-- The `version_added` field of an MDN BCD support entry:
`string | boolean | null`. -/
inductive VersionAdded where
  | vstr (s : Str)
  | vbool (b : Bool)
  | vnull
deriving DecidableEq, Repr

/-- One element of an MDN BCD `flags` list. -/
structure MdnFlag where
  name : Str
  type : Str
  value_to_set : Option Str := none
deriving DecidableEq, Repr

/-- An MDN BCD per-browser support entry (`MdnBcdSupport` in
`canIUseLoader.ts`). -/
structure MdnBcdSupport where
  version_added : VersionAdded
  version_removed : Option Str := none
  partial_implementation : Option Bool := none
  flags : Option (List MdnFlag) := none
deriving DecidableEq, Repr

/-- A support value under a browser key in `__compat.support`:
`MdnBcdSupport | MdnBcdSupport[]`. -/
inductive BcdSupportValue where
  | one (s : MdnBcdSupport)
  | many (l : List MdnBcdSupport)
deriving DecidableEq, Repr

/-- The intermediate result of `isVersionSupported`: a support level plus
the `partial_implementation` marker (the source's `partial` field, renamed
because `partial` is reserved in Lean). -/
structure SupportResult where
  level : SupportLevel
  partialFlag : Bool
deriving DecidableEq, Repr

/-- The source's `requiredVersion.replace(/^[≥><]=?/, '')`: one leading
operator character and an optional `=` are removed.  The caller only
applies it after checking the first character is one of `≥`, `>`, `<`. -/
def stripCmpOp : Str → Str
  | [] => []
  | _ :: '=' :: rest => rest
  | _ :: rest => rest

/-- From `canIUseLoader.ts`, `isVersionSupported`: resolves one MDN BCD
support entry against the current browser version.  An array takes its
first element; an empty array is no information. -/
def isVersionSupported (support : BcdSupportValue) (currentVersion : Str) :
    SupportResult :=
  let supportData : Option MdnBcdSupport :=
    match support with
    | .one s => some s
    | .many [] => none
    | .many (x :: _) => some x
  match supportData with
  | none => ⟨.unknown, false⟩
  | some sd =>
    if (match sd.flags with
        | some fs => decide (fs.length > 0)
        | none => false) then ⟨.notSupported, false⟩
    else
      match sd.version_added with
      | .vbool false => ⟨.notSupported, false⟩
      | .vbool true => ⟨.supported, sd.partial_implementation.getD false⟩
      | .vnull => ⟨.unknown, false⟩
      | .vstr requiredVersion =>
        if requiredVersion.head? = some '≤' then
          ⟨.supported, sd.partial_implementation.getD false⟩
        else
          let versionToCompare :=
            if requiredVersion.head? = some '≥' ∨ requiredVersion.head? = some '>'
                ∨ requiredVersion.head? = some '<' then
              stripCmpOp requiredVersion
            else requiredVersion
          if compareVersions currentVersion versionToCompare ≥ 0 then
            ⟨.supported, sd.partial_implementation.getD false⟩
          else ⟨.notSupported, false⟩

/-- Per-browser handling in `getMdnBcdSupport` (lines 726–739 of
`canIUseLoader.ts`): a missing entry is `unknown`, and the
`partial_implementation` marker downgrades the level to partial at the
return. -/
def bcdBrowserLevel (entry : Option BcdSupportValue) (currentVersion : Str) :
    SupportLevel :=
  match entry with
  | none => .unknown
  | some s =>
    let r := isVersionSupported s currentVersion
    if r.partialFlag then .partialSupport else r.level

/-- Raw status triple of an MDN BCD `__compat.status` object
(`MdnBcdStatus` in `canIUseLoader.ts`); every field may be absent. -/
structure MdnBcdStatus where
  experimental : Option Bool := none
  standard_track : Option Bool := none
  deprecated : Option Bool := none
deriving DecidableEq, Repr

/-- The `__compat` object of an MDN BCD feature node. -/
structure BcdCompat where
  mdn_url : Option Str := none
  support : Option (List (Str × BcdSupportValue)) := none
  status : Option MdnBcdStatus := none
deriving DecidableEq, Repr

/-- The hierarchical MDN BCD document: a tree whose nodes may carry a
`__compat` object and whose other keys are child features. -/
inductive BcdNode where
  | node (compat : Option BcdCompat) (children : List (Str × BcdNode))

/-- Child lookup on a BCD node (`current?.[part]`). -/
def bcdChild (n : BcdNode) (key : Str) : Option BcdNode :=
  match n with
  | .node _ children => alistLookup children key

/-- The descent loop of `navigateMdnBcdPath`: a missing segment at any
depth is "not found". -/
def navigateParts : List Str → BcdNode → Option BcdNode
  | [], n => some n
  | p :: ps, n =>
    match bcdChild n p with
    | none => none
    | some next => navigateParts ps next

/-- From `canIUseLoader.ts`, `navigateMdnBcdPath`: split the dotted path
and descend.  The source's trailing schema validation returns the very
node it was given whether validation succeeds or fails (only logging on
failure), so it is the identity here. -/
def navigateMdnBcdPath (data : BcdNode) (path : Str) : Option BcdNode :=
  navigateParts (splitOnChar '.' path) data

/-- Current browser versions (`BrowserVersions` in `canIUseLoader.ts`). -/
structure BrowserVersions where
  chrome : Str
  firefox : Str
  safari : Str
deriving DecidableEq, Repr

/-- Result type of `getMdnBcdSupport`. -/
structure MdnSupportResult where
  chrome_android : SupportLevel
  firefox_android : SupportLevel
  safari_ios : SupportLevel
  status : Option FeatureStatus := none
deriving DecidableEq, Repr

/-- From `canIUseLoader.ts`, `getMdnBcdSupport`: resolve a dotted path in
the hierarchical dataset for the three mobile browsers.  The dataset load
is the only fallible step of the wrapped `try`; a load failure reaches the
`catch` and yields all-`unknown`. -/
def getMdnBcdSupport (load : Except Unit BcdNode) (mdnBcdPath : Str)
    (bv : BrowserVersions) : MdnSupportResult :=
  match load with
  | .error _ => ⟨.unknown, .unknown, .unknown, none⟩
  | .ok bcdData =>
    match navigateMdnBcdPath bcdData mdnBcdPath with
    | none => ⟨.unknown, .unknown, .unknown, none⟩
    | some (.node compat _) =>
      match compat with
      | none => ⟨.unknown, .unknown, .unknown, none⟩
      | some c =>
        match c.support with
        | none => ⟨.unknown, .unknown, .unknown, none⟩
        | some support =>
          { chrome_android :=
              bcdBrowserLevel (alistLookup support (str "chrome_android")) bv.chrome
            firefox_android :=
              bcdBrowserLevel (alistLookup support (str "firefox_android")) bv.firefox
            safari_ios :=
              bcdBrowserLevel (alistLookup support (str "safari_ios")) bv.safari
            status := c.status.map (fun st =>
              { experimental := st.experimental.getD false
                standard_track :=
                  match st.standard_track with
                  | some false => false
                  | _ => true
                deprecated := st.deprecated.getD false }) }

/-- Feature keys treated as universally supported although absent from the
tabular dataset (`UNIVERSALLY_SUPPORTED_FEATURES` in `canIUseLoader.ts`). -/
def UNIVERSALLY_SUPPORTED_FEATURES : List Str := [str "web-app-manifest"]

/-- One feature record of the tabular dataset: per-agent, per-version
status codes. -/
structure CanIUseFeature where
  stats : Option (List (Str × List (Str × Str))) := none
deriving DecidableEq, Repr

/-- The tabular dataset document.  Its `agents` metadata is consumed only
by `getBrowserVersions`, which none of the verified claims concern, and is
elided. -/
structure CanIUseData where
  data : List (Str × CanIUseFeature)
deriving DecidableEq, Repr

/-- The range-key scan inside `findBrowserVersion`: the first
`"A-B"`-formatted key with numeric bounds containing the target version
wins; a `NaN` on either side, or on the target, skips the key. -/
def rangeScan (entries : List (Str × Str)) (targetMajor : Option JsNum) :
    Option Str :=
  match entries with
  | [] => none
  | (versionKey, support) :: rest =>
    if '-' ∈ versionKey then
      match (splitOnChar '-' versionKey).map parseFloatJs with
      | some rangeStart :: some rangeEnd :: _ =>
        match targetMajor with
        | some tm =>
          if JsNum.le rangeStart tm ∧ JsNum.le tm rangeEnd then some support
          else rangeScan rest targetMajor
        | none => rangeScan rest targetMajor
      | _ => rangeScan rest targetMajor
    else rangeScan rest targetMajor

/-- From `canIUseLoader.ts`, `findBrowserVersion`: find the best matching
version column.  Exact match first; only when the target contains a
decimal point, the integer major key and then the range keys; a literal
`TP` column last.  A column holding the empty string is falsy for the
guarded matches, exactly as in the source. -/
def findBrowserVersion (stats : Option (List (Str × Str)))
    (targetVersion : Str) : Option Str :=
  match stats with
  | none => none
  | some st =>
    let exactMatch := alistLookup st targetVersion
    if jsTruthyStr exactMatch then exactMatch
    else
      let dotResult : Option Str :=
        if '.' ∈ targetVersion then
          let majorVersion := (splitOnChar '.' targetVersion).headD []
          let majorMatch :=
            if majorVersion.isEmpty then none else alistLookup st majorVersion
          if jsTruthyStr majorMatch then majorMatch
          else rangeScan st (parseFloatJs targetVersion)
        else none
      match dotResult with
      | some r => some r
      | none =>
        let tpMatch := alistLookup st (str "TP")
        if jsTruthyStr tpMatch then tpMatch else none

/-- Result type of `getCanIUseSupport`. -/
structure CanIUseSupportResult where
  chrome_android : SupportLevel
  firefox_android : SupportLevel
  safari_ios : SupportLevel
deriving DecidableEq, Repr

/-- From `canIUseLoader.ts`, `getCanIUseSupport`: resolve a tabular
feature key for the three mobile agents.  The dataset load is the only
fallible step of the wrapped `try`; a load failure reaches the `catch` and
yields all-`unknown`, as does a missing feature key. -/
def getCanIUseSupport (load : Except Unit CanIUseData) (canIUseId : Str)
    (bv : BrowserVersions) : CanIUseSupportResult :=
  if canIUseId ∈ UNIVERSALLY_SUPPORTED_FEATURES then
    ⟨.supported, .supported, .supported⟩
  else
    match load with
    | .error _ => ⟨.unknown, .unknown, .unknown⟩
    | .ok data =>
      match alistLookup data.data canIUseId with
      | none => ⟨.unknown, .unknown, .unknown⟩
      | some featureData =>
        { chrome_android := parseStatus (findBrowserVersion
            (featureData.stats.bind (fun s => alistLookup s (str "and_chr"))) bv.chrome)
          firefox_android := parseStatus (findBrowserVersion
            (featureData.stats.bind (fun s => alistLookup s (str "and_ff"))) bv.firefox)
          safari_ios := parseStatus (findBrowserVersion
            (featureData.stats.bind (fun s => alistLookup s (str "ios_saf"))) bv.safari) }

/-- A feature of the static catalog, restricted to the fields the score
calculator reads (`PWAFeature` in `pwa-features`). -/
structure PWAFeature where
  id : Str
  canIUseId : Option Str := none
  mdnBcdPath : Option Str := none
  weight : Option JsNum := none
deriving DecidableEq, Repr

/-- A category of the static catalog. -/
structure PWAFeatureCategory where
  id : Str := []
  features : List PWAFeature
deriving DecidableEq, Repr

/-- A group of the static catalog. -/
structure PWAFeatureGroup where
  id : Str := []
  categories : List PWAFeatureCategory
deriving DecidableEq, Repr

/-- The three browser keys (`BrowserId` in `useBrowserSupport.ts`). -/
inductive BrowserId where
  | chrome
  | firefox
  | safari
deriving DecidableEq, Repr

/-- Per-feature support record cached by the aggregator (`BrowserSupport`
in `useBrowserSupport.ts`). -/
structure BrowserSupport where
  chrome : SupportLevel
  firefox : SupportLevel
  safari : SupportLevel
  status : Option FeatureStatus := none
  chromeVersion : Option Str := none
  firefoxVersion : Option Str := none
  safariVersion : Option Str := none
deriving DecidableEq, Repr

/-- The source's `support[browserId]` indexing. -/
def BrowserSupport.levelOf (s : BrowserSupport) : BrowserId → SupportLevel
  | .chrome => s.chrome
  | .firefox => s.firefox
  | .safari => s.safari

/-- From `useBrowserScore.ts`, `getSupportWeight`: numeric weight of a
support level (`unknown` counts as `0.0`). -/
def getSupportWeight : SupportLevel → JsNum
  | .supported => ⟨1, 1⟩
  | .partialSupport => ⟨1, 2⟩
  | .notSupported => ⟨0, 1⟩
  | .unknown => ⟨0, 1⟩

/-- From `useBrowserScore.ts`, `shouldExcludeFromPrimaryScore`: a feature
is excluded from the stable score when its status record marks it
experimental, off the standards track, or deprecated; a feature without a
status record is never excluded. -/
def shouldExcludeFromPrimaryScore (support : BrowserSupport) : Bool :=
  match support.status with
  | none => false
  | some st => st.experimental || !st.standard_track || st.deprecated

/-- The four percentage scores (`BrowserScores` in `useBrowserScore.ts`). -/
structure BrowserScores where
  weighted : Int
  unweighted : Int
  weightedFull : Int
  unweightedFull : Int
deriving DecidableEq, Repr

/-- The eight running tallies of `calculateBrowserScore`'s loop. -/
structure ScoreAcc where
  stableWeightedPoints : JsNum
  stableTotalPossibleWeight : JsNum
  stableUnweightedPoints : JsNum
  stableFeatureCount : Nat
  fullWeightedPoints : JsNum
  fullTotalPossibleWeight : JsNum
  fullUnweightedPoints : JsNum
  fullFeatureCount : Nat
deriving DecidableEq, Repr

/-- All tallies start at zero. -/
def initScoreAcc : ScoreAcc :=
  ⟨⟨0, 1⟩, ⟨0, 1⟩, ⟨0, 1⟩, 0, ⟨0, 1⟩, ⟨0, 1⟩, ⟨0, 1⟩, 0⟩

/-- The loop body of `calculateBrowserScore` for one feature: features at
`unknown` level are skipped entirely; every counted feature enters the
full tallies and, unless excluded by `shouldExcludeFromPrimaryScore`, the
stable tallies. -/
def scoreFeature (browserId : BrowserId)
    (getSupportFn : Str → Option Str → Option Str → BrowserSupport)
    (acc : ScoreAcc) (feature : PWAFeature) : ScoreAcc :=
  let support := getSupportFn feature.id feature.canIUseId feature.mdnBcdPath
  let browserSupport := support.levelOf browserId
  if browserSupport ≠ .unknown then
    let supportLevel := getSupportWeight browserSupport
    let featureWeight := feature.weight.getD ⟨1, 1⟩
    let excludeFromPrimary := shouldExcludeFromPrimaryScore support
    let acc1 : ScoreAcc := { acc with
      fullWeightedPoints := acc.fullWeightedPoints.add (supportLevel.mul featureWeight)
      fullTotalPossibleWeight := acc.fullTotalPossibleWeight.add featureWeight
      fullUnweightedPoints := acc.fullUnweightedPoints.add supportLevel
      fullFeatureCount := acc.fullFeatureCount + 1 }
    if !excludeFromPrimary then
      { acc1 with
        stableWeightedPoints := acc1.stableWeightedPoints.add (supportLevel.mul featureWeight)
        stableTotalPossibleWeight := acc1.stableTotalPossibleWeight.add featureWeight
        stableUnweightedPoints := acc1.stableUnweightedPoints.add supportLevel
        stableFeatureCount := acc1.stableFeatureCount + 1 }
    else acc1
  else acc

/-- From `useBrowserScore.ts`, `calculateBrowserScore`: one pass over
every feature of every category of every group, then the four guarded
percentages. -/
def calculateBrowserScore (browserId : BrowserId)
    (featureGroups : List PWAFeatureGroup)
    (getSupportFn : Str → Option Str → Option Str → BrowserSupport) :
    BrowserScores :=
  let acc := featureGroups.foldl
    (fun a g => g.categories.foldl
      (fun a c => c.features.foldl (scoreFeature browserId getSupportFn) a) a)
    initScoreAcc
  { weighted :=
      if acc.stableFeatureCount > 0
          && JsNum.lt ⟨0, 1⟩ acc.stableTotalPossibleWeight then
        jsRound ((acc.stableWeightedPoints.div acc.stableTotalPossibleWeight).mul ⟨100, 1⟩)
      else 0
    unweighted :=
      if acc.stableFeatureCount > 0 then
        jsRound ((acc.stableUnweightedPoints.div ⟨acc.stableFeatureCount, 1⟩).mul ⟨100, 1⟩)
      else 0
    weightedFull :=
      if acc.fullFeatureCount > 0
          && JsNum.lt ⟨0, 1⟩ acc.fullTotalPossibleWeight then
        jsRound ((acc.fullWeightedPoints.div acc.fullTotalPossibleWeight).mul ⟨100, 1⟩)
      else 0
    unweightedFull :=
      if acc.fullFeatureCount > 0 then
        jsRound ((acc.fullUnweightedPoints.div ⟨acc.fullFeatureCount, 1⟩).mul ⟨100, 1⟩)
      else 0 }

/-- The all-`unknown` fallback (`UNKNOWN_SUPPORT` in
`useBrowserSupport.ts`). -/
def UNKNOWN_SUPPORT : BrowserSupport :=
  { chrome := .unknown, firefox := .unknown, safari := .unknown }

/-- Manual browser support data for features absent from both public
datasets (`MANUAL_SUPPORT` in `useBrowserSupport.ts`). -/
def MANUAL_SUPPORT : List (Str × BrowserSupport) :=
  [ (str "apple-pay",
     { safari := .supported, chrome := .notSupported, firefox := .notSupported
       safariVersion := some (str "10.1")
       status := some ⟨false, false, false⟩ }),
    (str "google-pay",
     { chrome := .supported, safari := .notSupported, firefox := .notSupported
       chromeVersion := some (str "61")
       status := some ⟨false, false, false⟩ }),
    (str "declarative-web-push",
     { safari := .supported, chrome := .notSupported, firefox := .notSupported
       safariVersion := some (str "18.4")
       status := some ⟨true, false, false⟩ }),
    (str "viewport-control",
     { chrome := .supported, firefox := .supported, safari := .supported
       chromeVersion := some (str "18")
       firefoxVersion := some (str "4")
       safariVersion := some (str "3.1")
       status := some ⟨false, false, false⟩ }),
    (str "window-controls-overlay",
     { chrome := .supported, firefox := .notSupported, safari := .notSupported
       chromeVersion := some (str "105")
       status := some ⟨true, false, false⟩ }),
    (str "tabbed-mode",
     { chrome := .supported, firefox := .notSupported, safari := .notSupported
       chromeVersion := some (str "116")
       status := some ⟨true, false, false⟩ }),
    (str "https-requirement",
     { chrome := .supported, firefox := .supported, safari := .supported
       chromeVersion := some (str "45")
       firefoxVersion := some (str "44")
       safariVersion := some (str "11.1")
       status := some ⟨false, true, false⟩ }),
    (str "same-origin-policy",
     { chrome := .supported, firefox := .supported, safari := .supported
       status := some ⟨false, true, false⟩ }),
    (str "secure-contexts",
     { chrome := .supported, firefox := .supported, safari := .supported
       chromeVersion := some (str "47")
       firefoxVersion := some (str "49")
       safariVersion := some (str "11.1")
       status := some ⟨false, true, false⟩ }),
    (str "file-type-associations",
     { chrome := .notSupported, firefox := .notSupported, safari := .notSupported
       status := some ⟨true, false, false⟩ }),
    (str "open-with-pwa",
     { chrome := .notSupported, firefox := .notSupported, safari := .notSupported
       status := some ⟨true, false, false⟩ }) ]

/-- Static fallback versions (`DEFAULT_BROWSER_VERSIONS` in
`useBrowserSupport.ts`). -/
def DEFAULT_BROWSER_VERSIONS : BrowserVersions :=
  ⟨str "141", str "143", str "18.4"⟩

/-- The mutable state owned by one `useBrowserSupport()` instance: the
support cache and the browser-version metadata. -/
structure AggregatorState where
  supportCache : List (Str × BrowserSupport) := []
  browserVersions : BrowserVersions := DEFAULT_BROWSER_VERSIONS
  versionsLoaded : Bool := false
deriving DecidableEq, Repr

/-- JavaScript `a || b` on an optional string: `undefined` and `""` fall
through to the right operand. -/
def jsOrStr (a : Option Str) (b : Str) : Str :=
  match a with
  | some s => if s.isEmpty then b else s
  | none => b

/-- From `useBrowserSupport.ts`, `getSupport`: the synchronous lookup.
Returns the cached record when present; otherwise a manual-support entry
for the feature id, caching it; otherwise the all-`unknown` fallback with
no state change. -/
def getSupport (st : AggregatorState) (featureId : Str)
    (canIUseId mdnBcdPath : Option Str) : BrowserSupport × AggregatorState :=
  let cacheKey := jsOrStr canIUseId (jsOrStr mdnBcdPath featureId)
  match alistLookup st.supportCache cacheKey with
  | some cached => (cached, st)
  | none =>
    match alistLookup MANUAL_SUPPORT featureId with
    | some manual =>
      (manual, { st with supportCache := (cacheKey, manual) :: st.supportCache })
    | none => (UNKNOWN_SUPPORT, st)

/-- The aggregator's collaborators: the two resolvers (whose thrown errors
it catches), the manual override table, and the version metadata fetch. -/
structure AggregatorEnv where
  caniuseResolve : Str → BrowserVersions → Except Unit CanIUseSupportResult
  mdnResolve : Str → BrowserVersions → Except Unit MdnSupportResult
  manualSupport : Str → Option BrowserSupport
  fetchedVersions : BrowserVersions

/-- Shape conversion from the tabular resolver's result to the cached
record (the same three levels under the aggregator's keys). -/
def canIUseToSupport (r : CanIUseSupportResult) : BrowserSupport :=
  { chrome := r.chrome_android, firefox := r.firefox_android
    safari := r.safari_ios }

/-- Shape conversion from the hierarchical resolver's result to the cached
record, carrying the status triple along. -/
def mdnToSupport (r : MdnSupportResult) : BrowserSupport :=
  { chrome := r.chrome_android, firefox := r.firefox_android
    safari := r.safari_ios, status := r.status }

/-- Acceptance gate of the aggregator: a resolver result counts only if at
least one browser's level is not `unknown`. -/
def hasKnownLevel (s : BrowserSupport) : Bool :=
  match s.chrome, s.firefox, s.safari with
  | .unknown, .unknown, .unknown => false
  | _, _, _ => true

/-- Step 3 of the aggregator: browser-version metadata is loaded at most
once. -/
def ensureVersions (env : AggregatorEnv) (st : AggregatorState) :
    AggregatorState :=
  if st.versionsLoaded then st
  else { st with browserVersions := env.fetchedVersions, versionsLoaded := true }

/-- Modelled from the spec: the newest revision of `loadSupport` in
`useBrowserSupport.ts` is absent from the tree (only its unit tests
remain), so this definition follows §4.5 of the specification.  Per
resolution: return any cached value; with no identifiers consult the
manual table; otherwise ensure versions are loaded, resolve via the
hierarchical source first, accept its result only if some browser's level
is not `unknown`, fall through to the tabular source under the same gate,
and finally to the manual table; a resolver error is caught and treated as
inconclusive; every outcome is cached under
`canIUseId ?? mdnBcdPath ?? featureId`. -/
def loadSupport (env : AggregatorEnv) (st : AggregatorState) (featureId : Str)
    (canIUseId mdnBcdPath : Option Str) : BrowserSupport × AggregatorState :=
  let cacheKey := canIUseId.getD (mdnBcdPath.getD featureId)
  match alistLookup st.supportCache cacheKey with
  | some cached => (cached, st)
  | none =>
    match canIUseId, mdnBcdPath with
    | none, none =>
      let result := (env.manualSupport featureId).getD UNKNOWN_SUPPORT
      (result, { st with supportCache := (cacheKey, result) :: st.supportCache })
    | _, _ =>
      let st1 := ensureVersions env st
      let hierResult : Option BrowserSupport :=
        match mdnBcdPath with
        | some p =>
          match env.mdnResolve p st1.browserVersions with
          | .ok r =>
            let s := mdnToSupport r
            if hasKnownLevel s then some s else none
          | .error _ => none
        | none => none
      match hierResult with
      | some s => (s, { st1 with supportCache := (cacheKey, s) :: st1.supportCache })
      | none =>
        let tabResult : Option BrowserSupport :=
          match canIUseId with
          | some cid =>
            match env.caniuseResolve cid st1.browserVersions with
            | .ok r =>
              let s := canIUseToSupport r
              if hasKnownLevel s then some s else none
            | .error _ => none
          | none => none
        match tabResult with
        | some s => (s, { st1 with supportCache := (cacheKey, s) :: st1.supportCache })
        | none =>
          let result := (env.manualSupport featureId).getD UNKNOWN_SUPPORT
          (result, { st1 with supportCache := (cacheKey, result) :: st1.supportCache })

theorem cmpSegs_antisym (s : List Int) : ∀ t, cmpSegs s t = -cmpSegs t s := by
  induction s with
  | nil =>
    intro t
    cases t with
    | nil => simp [cmpSegs, cmpRest]
    | cons y ys => simp [cmpSegs]
  | cons x xs ih =>
    intro t
    cases t with
    | nil => simp [cmpSegs]
    | cons y ys =>
      by_cases hxy : x = y
      · simp [cmpSegs, hxy, ih ys]
      · have hyx : ¬ y = x := fun h => hxy h.symm
        simp only [cmpSegs, if_neg hxy, if_neg hyx]
        omega

theorem cmpSegs_self (s : List Int) : cmpSegs s s = 0 := by
  induction s with
  | nil => simp [cmpSegs, cmpRest]
  | cons x xs ih => simp [cmpSegs, ih]

theorem lexCmp_antisym (s : Str) : ∀ t, lexCmp s t = -lexCmp t s := by
  induction s with
  | nil => intro t; cases t <;> simp [lexCmp]
  | cons x xs ih =>
    intro t
    cases t with
    | nil => simp [lexCmp]
    | cons y ys =>
      by_cases hxy : x = y
      · simp [lexCmp, hxy, ih ys]
      · have hyx : ¬ y = x := fun h => hxy h.symm
        rcases lt_trichotomy x y with h | h | h
        · simp [lexCmp, hxy, hyx, h, not_lt.mpr h.le]
        · exact absurd h hxy
        · simp [lexCmp, hxy, hyx, h, not_lt.mpr h.le]

theorem lexCmp_self (s : Str) : lexCmp s s = 0 := by
  induction s with
  | nil => simp [lexCmp]
  | cons x xs ih => simp [lexCmp, ih]

theorem splitOnChar_ne_nil (c : Char) (s : Str) : splitOnChar c s ≠ [] := by
  induction s with
  | nil => simp [splitOnChar]
  | cons x xs ih =>
    by_cases hx : x = c
    · simp [splitOnChar, hx]
    · simp only [splitOnChar, if_neg hx]
      cases hsp : splitOnChar c xs <;> simp

theorem splitOnChar_not_mem {c : Char} {s : Str} (h : c ∉ s) : splitOnChar c s = [s] := by
  induction s with
  | nil => simp [splitOnChar]
  | cons x xs ih =>
    have hx : ¬ x = c := by intro he; exact h (by simp [he])
    have hxs : c ∉ xs := fun hm => h (List.mem_cons_of_mem _ hm)
    simp [splitOnChar, hx, ih hxs]

theorem splitOnChar_append_cons (c : Char) (xs ys : Str) :
    splitOnChar c (xs ++ c :: ys) = splitOnChar c xs ++ splitOnChar c ys := by
  induction xs with
  | nil => simp [splitOnChar]
  | cons x xt ih =>
    by_cases hx : x = c
    · simp [splitOnChar, hx, ih]
    · simp only [List.cons_append, splitOnChar, if_neg hx, ih]
      cases hsp : splitOnChar c xt with
      | nil => exact absurd hsp (splitOnChar_ne_nil c xt)
      | cons p ps => simp [ih, hsp]

theorem cmpSegs_append_zero (l : List Int) : cmpSegs l (l ++ [0]) = 0 := by
  induction l with
  | nil => simp [cmpSegs, cmpRest]
  | cons x xs ih => simp [cmpSegs, ih]

theorem compareVersions_antisym (a b : Str) :
    compareVersions a b = -compareVersions b a := by
  simp only [compareVersions]
  have hseg := cmpSegs_antisym ((splitOnChar '.' (splitDash a).1).map segVal)
    ((splitOnChar '.' (splitDash b).1).map segVal)
  by_cases h : cmpSegs ((splitOnChar '.' (splitDash a).1).map segVal)
      ((splitOnChar '.' (splitDash b).1).map segVal) = 0
  · have h2 : cmpSegs ((splitOnChar '.' (splitDash b).1).map segVal)
        ((splitOnChar '.' (splitDash a).1).map segVal) = 0 := by omega
    rcases hpa : (splitDash a).2 with _ | p <;> rcases hpb : (splitDash b).2 with _ | q
    · simp [h, h2]
    · by_cases hq : q.isEmpty <;> simp [h, h2, hq]
    · by_cases hp : p.isEmpty <;> simp [h, h2, hp]
    · by_cases hp : p.isEmpty <;> by_cases hq : q.isEmpty <;>
        simp [h, h2, hp, hq, lexCmp_antisym p q]
  · have h2 : cmpSegs ((splitOnChar '.' (splitDash b).1).map segVal)
        ((splitOnChar '.' (splitDash a).1).map segVal) ≠ 0 := by omega
    simp [h, h2]
    omega

theorem compareVersions_self (a : Str) : compareVersions a a = 0 := by
  simp only [compareVersions, cmpSegs_self]
  rcases hpa : (splitDash a).2 with _ | p
  · simp
  · by_cases hp : p.isEmpty <;> simp [hp, lexCmp_self]

theorem compareVersions_pad (s : Str) (hne : s ≠ []) (hm : '-' ∉ s) :
    compareVersions s (s ++ str ".0") = 0 := by
  obtain ⟨x, xs, rfl⟩ : ∃ x xs, s = x :: xs := by
    cases s with
    | nil => exact absurd rfl hne
    | cons x xs => exact ⟨x, xs, rfl⟩
  have hm2 : '-' ∉ x :: (xs ++ str ".0") := by
    intro hmem
    rcases List.mem_cons.mp hmem with hmem | hmem
    · exact hm (hmem ▸ List.mem_cons_self x xs)
    · rcases List.mem_append.mp hmem with hmem | hmem
      · exact hm (List.mem_cons_of_mem _ hmem)
      · simp [str] at hmem
  have hd1 : splitDash (x :: xs) = (x :: xs, none) := by
    simp [splitDash, splitOnChar_not_mem hm]
  have hd2 : splitDash ((x :: xs) ++ str ".0") = ((x :: xs) ++ str ".0", none) := by
    simp [splitDash, splitOnChar_not_mem hm2]
  have hsplit : splitOnChar '.' ((x :: xs) ++ str ".0")
      = splitOnChar '.' (x :: xs) ++ [['0']] := by
    have hdot : str ".0" = '.' :: ['0'] := rfl
    rw [hdot, splitOnChar_append_cons]
    simp [splitOnChar]
  have hparts : (splitOnChar '.' ((x :: xs) ++ str ".0")).map segVal
      = (splitOnChar '.' (x :: xs)).map segVal ++ [0] := by
    rw [hsplit, List.map_append]
    have : segVal ['0'] = 0 := by decide
    simp [this]
  simp only [compareVersions, hd1, hd2, hparts, cmpSegs_append_zero]
  simp

theorem dropTrailingWs_cons (c : Char) (l : Str) (h : jsWs c = false) :
    ∃ r, dropTrailingWs (c :: l) = c :: r := by
  simp only [dropTrailingWs]
  cases hd : dropTrailingWs l with
  | nil => exact ⟨[], by simp [h]⟩
  | cons a as => exact ⟨a :: as, rfl⟩

theorem jsTrim_lower_cons (c : Char) (l : Str) (h : jsWs c.toLower = false) :
    ∃ r, jsTrim (jsToLower (c :: l)) = c.toLower :: r := by
  have hlow : jsToLower (c :: l) = c.toLower :: jsToLower l := rfl
  rw [hlow, jsTrim]
  have hdw : List.dropWhile jsWs (c.toLower :: jsToLower l)
      = c.toLower :: jsToLower l := by
    simp [List.dropWhile, h]
  rw [hdw]
  exact dropTrailingWs_cons _ _ h

theorem parseStatus_head (c : Char) (l : Str) (h : jsWs c.toLower = false) :
    parseStatus (some (c :: l)) = parseStatus (some [c]) := by
  obtain ⟨r, hr⟩ := jsTrim_lower_cons c l h
  obtain ⟨r2, hr2⟩ := jsTrim_lower_cons c [] h
  simp [parseStatus, hr, hr2]

/-- **C5**: `compareVersions` satisfies `compare(a,b) = -compare(b,a)` and
`compare(a,a) = 0` for all version strings; numeric segments are compared
left-to-right with zero padding (appending `".0"` never changes the
outcome) and wildcard segments count as `0`; with equal numeric segments a
version without a pre-release suffix is the greater; and the five
documented examples evaluate as stated. -/
theorem c5_compareVersions_comparator :
    (∀ a b : Str, compareVersions a b = -compareVersions b a) ∧
    (∀ a : Str, compareVersions a a = 0) ∧
    (∀ s : Str, s ≠ [] → '-' ∉ s → compareVersions s (s ++ str ".0") = 0) ∧
    compareVersions (str "18.10") (str "18.9") > 0 ∧
    compareVersions (str "16") (str "16.4") < 0 ∧
    compareVersions (str "18") (str "18.0") = 0 ∧
    compareVersions (str "18.0-alpha") (str "18.0") < 0 ∧
    compareVersions (str "17.x") (str "17.0") = 0 :=
  ⟨compareVersions_antisym, compareVersions_self, compareVersions_pad,
   by decide, by decide, by decide, by decide, by decide⟩

theorem c5_witness :
    str "7" ≠ [] ∧ '-' ∉ str "7" ∧
    compareVersions (str "7") (str "7" ++ str ".0") = 0 :=
  ⟨by decide, by decide,
   c5_compareVersions_comparator.2.2.1 (str "7") (by decide) (by decide)⟩

/-- **C6**: `parseStatus` is total and maps absent or empty input to
`unknown`; otherwise the code is lowercased and the level is decided
solely by its first character (so trailing space-separated modifiers are
ignored): `y` → supported, `a` → partial, `n` or `u` → not-supported,
`p` or `x` → partial, anything else → unknown.  In particular
`parseStatus "y x" = supported` and `parseStatus "a #2" = partial`. -/
theorem c6_parseStatus_first_char :
    parseStatus none = .unknown ∧
    parseStatus (some (str "")) = .unknown ∧
    (∀ (c : Char) (l : Str), jsWs c.toLower = false →
      parseStatus (some (c :: l)) = parseStatus (some [c])) ∧
    parseStatus (some (str "y x")) = .supported ∧
    parseStatus (some (str "a #2")) = .partialSupport ∧
    parseStatus (some (str "n d #2")) = .notSupported ∧
    parseStatus (some (str "u")) = .notSupported ∧
    parseStatus (some (str "p")) = .partialSupport ∧
    parseStatus (some (str "x")) = .partialSupport ∧
    parseStatus (some (str "Y x")) = .supported ∧
    parseStatus (some (str "q 1")) = .unknown :=
  ⟨by decide, by decide, parseStatus_head, by decide, by decide, by decide,
   by decide, by decide, by decide, by decide, by decide⟩

theorem c6_witness :
    jsWs 'y'.toLower = false ∧
    parseStatus (some ('y' :: str " modifier")) = parseStatus (some ['y']) :=
  ⟨by decide,
   c6_parseStatus_first_char.2.2.1 'y' (str " modifier") (by decide)⟩

/-- **C3**: per-browser resolution of a hierarchical-dataset support entry
against the current browser version follows the source's case analysis: a
missing entry or empty array is `unknown`; a non-empty flags list is
`not-supported`; `version_added = false`/`true`/`null` give
`not-supported`/`supported` (downgraded to partial by
`partial_implementation`)/`unknown`; a version string starting with `≤` is
accepted outright; any other version string is compared, after stripping a
leading `≥`, `>` or `<`, with `compareVersions` against the current
version; an array is consulted only at its first element. -/
theorem c3_isVersionSupported_cases :
    (∀ cur : Str, bcdBrowserLevel none cur = .unknown) ∧
    (∀ cur : Str, bcdBrowserLevel (some (.many [])) cur = .unknown) ∧
    (∀ (sd : MdnBcdSupport) (fs : List MdnFlag) (cur : Str),
      sd.flags = some fs → fs ≠ [] →
      bcdBrowserLevel (some (.one sd)) cur = .notSupported) ∧
    (∀ (sd : MdnBcdSupport) (cur : Str),
      (sd.flags = none ∨ sd.flags = some []) →
      sd.version_added = .vbool false →
      bcdBrowserLevel (some (.one sd)) cur = .notSupported) ∧
    (∀ (sd : MdnBcdSupport) (cur : Str),
      (sd.flags = none ∨ sd.flags = some []) →
      sd.version_added = .vbool true →
      bcdBrowserLevel (some (.one sd)) cur
        = (if sd.partial_implementation.getD false then .partialSupport
           else .supported)) ∧
    (∀ (sd : MdnBcdSupport) (cur : Str),
      (sd.flags = none ∨ sd.flags = some []) →
      sd.version_added = .vnull →
      bcdBrowserLevel (some (.one sd)) cur = .unknown) ∧
    (∀ (sd : MdnBcdSupport) (s cur : Str),
      (sd.flags = none ∨ sd.flags = some []) →
      sd.version_added = .vstr s →
      s.head? = some '≤' →
      bcdBrowserLevel (some (.one sd)) cur
        = (if sd.partial_implementation.getD false then .partialSupport
           else .supported)) ∧
    (∀ (sd : MdnBcdSupport) (s cur : Str),
      (sd.flags = none ∨ sd.flags = some []) →
      sd.version_added = .vstr s →
      s.head? ≠ some '≤' →
      bcdBrowserLevel (some (.one sd)) cur
        = (if compareVersions cur
              (if s.head? = some '≥' ∨ s.head? = some '>' ∨ s.head? = some '<' then
                stripCmpOp s
              else s) ≥ 0 then
            (if sd.partial_implementation.getD false then .partialSupport
             else .supported)
          else .notSupported)) ∧
    (∀ (x : MdnBcdSupport) (xs : List MdnBcdSupport) (cur : Str),
      bcdBrowserLevel (some (.many (x :: xs))) cur
        = bcdBrowserLevel (some (.one x)) cur) := by
  refine ⟨?_, ?_, ?_, ?_, ?_, ?_, ?_, ?_, ?_⟩
  · intro cur; rfl
  · intro cur; rfl
  · intro sd fs cur hf hne
    have hlen : decide (fs.length > 0) = true := by
      simp [List.length_pos, hne]
    simp [bcdBrowserLevel, isVersionSupported, hf, hlen]
  · intro sd cur hfl hva
    rcases hfl with hfl | hfl <;> simp [bcdBrowserLevel, isVersionSupported, hfl, hva]
  · intro sd cur hfl hva
    rcases hfl with hfl | hfl <;>
      · simp only [bcdBrowserLevel, isVersionSupported, hfl, hva]
        cases hpi : sd.partial_implementation.getD false <;> simp [hpi]
  · intro sd cur hfl hva
    rcases hfl with hfl | hfl <;> simp [bcdBrowserLevel, isVersionSupported, hfl, hva]
  · intro sd s cur hfl hva hle
    rcases hfl with hfl | hfl <;>
      simp [bcdBrowserLevel, isVersionSupported, hfl, hva, hle]
  · intro sd s cur hfl hva hle
    rcases hfl with hfl | hfl <;>
      · simp only [bcdBrowserLevel, isVersionSupported, hfl, hva]
        simp only [if_neg hle]
        by_cases hcmp : compareVersions cur
            (if s.head? = some '≥' ∨ s.head? = some '>' ∨ s.head? = some '<' then
              stripCmpOp s
            else s) ≥ 0
        · simp only [if_pos hcmp]
          cases hpi : sd.partial_implementation.getD false <;> simp [hpi, hcmp]
        · simp [hcmp]
  · intro x xs cur; rfl

theorem c3_witness :
    (({ version_added := .vbool false } : MdnBcdSupport).flags = none ∨
      ({ version_added := .vbool false } : MdnBcdSupport).flags = some []) ∧
    bcdBrowserLevel (some (.one { version_added := .vbool false })) (str "141")
      = .notSupported :=
  ⟨Or.inl rfl,
   c3_isVersionSupported_cases.2.2.2.1 { version_added := .vbool false }
     (str "141") (Or.inl rfl) rfl⟩

/-- **C10**: the hierarchical resolver ignores `version_removed` entirely:
changing it never changes the resolved level, and a concrete entry whose
`version_added` (1) is satisfied by the current version (100) is reported
`supported` even though its `version_removed` (2) is at or below the
current version. -/
theorem c10_version_removed_ignored :
    (∀ (sd : MdnBcdSupport) (r : Option Str) (cur : Str),
      bcdBrowserLevel (some (.one { sd with version_removed := r })) cur
        = bcdBrowserLevel (some (.one sd)) cur) ∧
    (∀ (sd : MdnBcdSupport) (r : Option Str) (l : List MdnBcdSupport) (cur : Str),
      bcdBrowserLevel (some (.many ({ sd with version_removed := r } :: l))) cur
        = bcdBrowserLevel (some (.many (sd :: l))) cur) ∧
    bcdBrowserLevel
      (some (.one
        { version_added := .vstr (str "1"), version_removed := some (str "2") }))
      (str "100") = .supported ∧
    compareVersions (str "100") (str "2") ≥ 0 := by
  refine ⟨?_, ?_, by decide, by decide⟩
  · intro sd r cur; rfl
  · intro sd r l cur; rfl

/-- **C4** counterexample: for the dot-less target version `"141"` and a
stats table whose only column is the range `"140-141"` (which numerically
contains the target, as the `rangeScan` conjunct shows), the search
returns no column at all — the range scan is skipped because it is nested
under the decimal-point check, refuting the claim that step (c) applies
for every target version. -/
theorem c4_counterexample :
    ¬ ('.' ∈ str "141") ∧
    rangeScan [(str "140-141", str "y")] (parseFloatJs (str "141"))
      = some (str "y") ∧
    findBrowserVersion (some [(str "140-141", str "y")]) (str "141") = none ∧
    parseStatus (findBrowserVersion (some [(str "140-141", str "y")])
      (str "141")) = .unknown := by
  refine ⟨by decide, by decide, by decide, by decide⟩

/-- **C4** (amended): the tabular resolver searches for the best matching
version column in the order (a) exact non-empty match; (b) the integer
major-version key; (c) the first containing range key; (d) the literal
`TP` key — but steps (b) and (c) are attempted only when the target
version contains a decimal point; a dot-less target falls directly from
(a) to (d).  A browser with no matching column resolves to `unknown`. -/
theorem c4_findBrowserVersion_order :
    (∀ t : Str, findBrowserVersion none t = none) ∧
    (∀ (st : List (Str × Str)) (t v : Str),
      alistLookup st t = some v → v ≠ [] →
      findBrowserVersion (some st) t = some v) ∧
    (∀ (st : List (Str × Str)) (t : Str),
      ¬ ('.' ∈ t) → jsTruthyStr (alistLookup st t) = false →
      findBrowserVersion (some st) t
        = (if jsTruthyStr (alistLookup st (str "TP")) then
            alistLookup st (str "TP")
          else none)) ∧
    (∀ (st : List (Str × Str)) (t mv v : Str),
      '.' ∈ t → jsTruthyStr (alistLookup st t) = false →
      (splitOnChar '.' t).headD [] = mv → mv ≠ [] →
      alistLookup st mv = some v → v ≠ [] →
      findBrowserVersion (some st) t = some v) ∧
    (∀ (st : List (Str × Str)) (t : Str),
      '.' ∈ t → jsTruthyStr (alistLookup st t) = false →
      jsTruthyStr (if ((splitOnChar '.' t).headD []).isEmpty then none
        else alistLookup st ((splitOnChar '.' t).headD [])) = false →
      findBrowserVersion (some st) t
        = (match rangeScan st (parseFloatJs t) with
           | some r => some r
           | none =>
             if jsTruthyStr (alistLookup st (str "TP")) then
               alistLookup st (str "TP")
             else none)) ∧
    (∀ (st : Option (List (Str × Str))) (t : Str),
      findBrowserVersion st t = none →
      parseStatus (findBrowserVersion st t) = .unknown) := by
  refine ⟨?_, ?_, ?_, ?_, ?_, ?_⟩
  · intro t; rfl
  · intro st t v hl hv
    have hne : v.isEmpty = false := by
      cases v with
      | nil => exact absurd rfl hv
      | cons a as => rfl
    simp [findBrowserVersion, hl, jsTruthyStr, hne]
  · intro st t hdot hexact
    simp [findBrowserVersion, hexact, hdot]
  · intro st t mv v hdot hexact hmv hmvne hl hv
    have hmm : jsTruthyStr (if ((splitOnChar '.' t).headD []).isEmpty then none
        else alistLookup st ((splitOnChar '.' t).headD [])) = true := by
      rw [hmv]
      have : mv.isEmpty = false := by
        cases mv with
        | nil => exact absurd rfl hmvne
        | cons a as => rfl
      simp [this, jsTruthyStr, hl, hv]
    simp only [findBrowserVersion, hexact, Bool.false_eq_true, if_false,
      if_pos hdot, hmm, if_true]
    rw [hmv] at hmm ⊢
    have hne : mv.isEmpty = false := by
      cases mv with
      | nil => exact absurd rfl hmvne
      | cons a as => rfl
    simp [hne, hl, jsTruthyStr, hv] at hmm ⊢
  · intro st t hdot hexact hmajor
    simp only [findBrowserVersion, hexact, hmajor, if_pos hdot,
      Bool.false_eq_true, if_false]
  · intro st t h
    rw [h]; rfl

theorem c4_witness :
    alistLookup [(str "18.4", str "y")] (str "18.4") = some (str "y") ∧
    str "y" ≠ [] ∧
    findBrowserVersion (some [(str "18.4", str "y")]) (str "18.4")
      = some (str "y") :=
  ⟨by decide, by decide,
   c4_findBrowserVersion_order.2.1 [(str "18.4", str "y")] (str "18.4")
     (str "y") (by decide) (by decide)⟩

/-- **C2**: a feature whose status record marks it experimental (or off
the standards track, or deprecated) is excluded from the stable scores but
still counted in the full scores, while a feature with no status record is
included in both; in particular one non-excluded supported feature plus
one experimental not-supported feature, both with default weight, yields
`weighted = 100`, `unweighted = 100`, `weightedFull = 50`,
`unweightedFull = 50`. -/
theorem c2_score_excludes_experimental :
    (∀ (s : BrowserSupport) (st : FeatureStatus), s.status = some st →
      shouldExcludeFromPrimaryScore s
        = (st.experimental || !st.standard_track || st.deprecated)) ∧
    (∀ s : BrowserSupport, s.status = none →
      shouldExcludeFromPrimaryScore s = false) ∧
    calculateBrowserScore .chrome
      [{ categories := [{ features := [{ id := str "f1" }, { id := str "f2" }] }] }]
      (fun fid _ _ =>
        if fid = str "f1" then
          { chrome := .supported, firefox := .supported, safari := .supported }
        else
          { chrome := .notSupported, firefox := .notSupported,
            safari := .notSupported, status := some ⟨true, true, false⟩ })
      = ⟨100, 100, 50, 50⟩ := by
  refine ⟨?_, ?_, by decide⟩
  · intro s st h
    simp [shouldExcludeFromPrimaryScore, h]
  · intro s h
    simp [shouldExcludeFromPrimaryScore, h]

theorem c2_witness :
    shouldExcludeFromPrimaryScore
      { chrome := .notSupported, firefox := .notSupported,
        safari := .notSupported, status := some ⟨true, true, false⟩ }
      = ((true : Bool) || !(true : Bool) || (false : Bool)) :=
  c2_score_excludes_experimental.1 _ ⟨true, true, false⟩ rfl

/-- **C9** counterexample: `getSupport` is not a pure cache read.  For the
feature id `"apple-pay"` (which has a manual-support entry) and an empty
cache, it returns the manual record — not the all-`unknown` default — and
writes it into the support cache, changing the aggregator state. -/
theorem c9_counterexample :
    (getSupport ⟨[], DEFAULT_BROWSER_VERSIONS, false⟩ (str "apple-pay")
      none none).2 ≠ ⟨[], DEFAULT_BROWSER_VERSIONS, false⟩ ∧
    (getSupport ⟨[], DEFAULT_BROWSER_VERSIONS, false⟩ (str "apple-pay")
      none none).1 ≠ UNKNOWN_SUPPORT := by
  refine ⟨by decide, by decide⟩

/-- **C9** (amended): `getSupport` is synchronous and resolves the key
`canIUseId || mdnBcdPath || featureId`.  A cached key returns the cached
record with no state change; an uncached key with no manual-support entry
for the feature id returns the all-`unknown` default with no state change;
an uncached key whose feature id has a manual-support entry returns that
entry and caches it — the one write `getSupport` (and hence the score
calculator reading through it) can perform. -/
theorem c9_getSupport_frame :
    (∀ (st : AggregatorState) (f : Str) (c m : Option Str) (v : BrowserSupport),
      alistLookup st.supportCache (jsOrStr c (jsOrStr m f)) = some v →
      getSupport st f c m = (v, st)) ∧
    (∀ (st : AggregatorState) (f : Str) (c m : Option Str),
      alistLookup st.supportCache (jsOrStr c (jsOrStr m f)) = none →
      alistLookup MANUAL_SUPPORT f = none →
      getSupport st f c m = (UNKNOWN_SUPPORT, st)) ∧
    (∀ (st : AggregatorState) (f : Str) (c m : Option Str) (v : BrowserSupport),
      alistLookup st.supportCache (jsOrStr c (jsOrStr m f)) = none →
      alistLookup MANUAL_SUPPORT f = some v →
      getSupport st f c m
        = (v, { st with
            supportCache := (jsOrStr c (jsOrStr m f), v) :: st.supportCache })) := by
  refine ⟨?_, ?_, ?_⟩
  · intro st f c m v h
    simp [getSupport, h]
  · intro st f c m h hm
    simp [getSupport, h, hm]
  · intro st f c m v h hm
    simp [getSupport, h, hm]

theorem c9_witness :
    alistLookup (⟨[(str "k", UNKNOWN_SUPPORT)], DEFAULT_BROWSER_VERSIONS,
      false⟩ : AggregatorState).supportCache
      (jsOrStr none (jsOrStr none (str "k"))) = some UNKNOWN_SUPPORT ∧
    getSupport ⟨[(str "k", UNKNOWN_SUPPORT)], DEFAULT_BROWSER_VERSIONS, false⟩
      (str "k") none none
      = (UNKNOWN_SUPPORT,
         ⟨[(str "k", UNKNOWN_SUPPORT)], DEFAULT_BROWSER_VERSIONS, false⟩) :=
  ⟨by decide,
   c9_getSupport_frame.1 ⟨[(str "k", UNKNOWN_SUPPORT)],
     DEFAULT_BROWSER_VERSIONS, false⟩ (str "k") none none UNKNOWN_SUPPORT
     (by decide)⟩

theorem ensureVersions_cache (env : AggregatorEnv) (st : AggregatorState) :
    (ensureVersions env st).supportCache = st.supportCache := by
  unfold ensureVersions
  split <;> rfl

theorem loadSupport_hit (env : AggregatorEnv) (st : AggregatorState) (f : Str)
    (c m : Option Str) (v : BrowserSupport)
    (h : alistLookup st.supportCache (c.getD (m.getD f)) = some v) :
    loadSupport env st f c m = (v, st) := by
  simp [loadSupport, h]

theorem loadSupport_cache_shape (env : AggregatorEnv) (st : AggregatorState)
    (f : Str) (c m : Option Str)
    (h : alistLookup st.supportCache (c.getD (m.getD f)) = none) :
    (loadSupport env st f c m).2.supportCache
      = (c.getD (m.getD f), (loadSupport env st f c m).1) :: st.supportCache := by
  simp only [loadSupport, h]
  cases c <;> cases m <;>
    · repeat' split
      all_goals simp [ensureVersions_cache]

/-- **C8**: the aggregator's `loadSupport` memoizes under the key
`canIUseId ?? mdnBcdPath ?? featureId`: every call leaves its own result
cached under that key; an immediate second call with the same arguments
returns exactly the first call's result and state (the cache-hit path);
and a key already bound in the cache keeps its binding across any later
call (write-once per key). -/
theorem c8_loadSupport_memoized :
    (∀ (env : AggregatorEnv) (st : AggregatorState) (f : Str) (c m : Option Str),
      alistLookup (loadSupport env st f c m).2.supportCache (c.getD (m.getD f))
        = some (loadSupport env st f c m).1) ∧
    (∀ (env : AggregatorEnv) (st : AggregatorState) (f : Str) (c m : Option Str),
      loadSupport env (loadSupport env st f c m).2 f c m
        = loadSupport env st f c m) ∧
    (∀ (env : AggregatorEnv) (st : AggregatorState) (f : Str) (c m : Option Str)
       (k : Str),
      (alistLookup st.supportCache k).isSome →
      alistLookup (loadSupport env st f c m).2.supportCache k
        = alistLookup st.supportCache k) := by
  have hbound : ∀ (env : AggregatorEnv) (st : AggregatorState) (f : Str)
      (c m : Option Str),
      alistLookup (loadSupport env st f c m).2.supportCache (c.getD (m.getD f))
        = some (loadSupport env st f c m).1 := by
    intro env st f c m
    cases hcache : alistLookup st.supportCache (c.getD (m.getD f)) with
    | some v =>
      rw [loadSupport_hit env st f c m v hcache]
      exact hcache
    | none =>
      rw [loadSupport_cache_shape env st f c m hcache]
      simp [alistLookup]
  refine ⟨hbound, ?_, ?_⟩
  · intro env st f c m
    have h := loadSupport_hit env (loadSupport env st f c m).2 f c m
      (loadSupport env st f c m).1 (hbound env st f c m)
    rw [h]
  · intro env st f c m k hk
    cases hcache : alistLookup st.supportCache (c.getD (m.getD f)) with
    | some v => rw [loadSupport_hit env st f c m v hcache]
    | none =>
      rw [loadSupport_cache_shape env st f c m hcache]
      have hne : ¬ (c.getD (m.getD f)) = k := by
        intro he
        rw [he] at hcache
        rw [hcache] at hk
        simp at hk
      simp [alistLookup, hne]

theorem c8_witness :
    ((alistLookup
        (⟨[(str "k", UNKNOWN_SUPPORT)], DEFAULT_BROWSER_VERSIONS, false⟩
          : AggregatorState).supportCache (str "k")).isSome = true) ∧
    alistLookup
      (loadSupport
        ⟨(fun _ _ => .error ()), (fun _ _ => .error ()), (fun _ => none),
          DEFAULT_BROWSER_VERSIONS⟩
        ⟨[(str "k", UNKNOWN_SUPPORT)], DEFAULT_BROWSER_VERSIONS, false⟩
        (str "other") none none).2.supportCache (str "k")
      = alistLookup
          (⟨[(str "k", UNKNOWN_SUPPORT)], DEFAULT_BROWSER_VERSIONS, false⟩
            : AggregatorState).supportCache (str "k") :=
  ⟨by decide,
   c8_loadSupport_memoized.2.2
     ⟨(fun _ _ => .error ()), (fun _ _ => .error ()), (fun _ => none),
       DEFAULT_BROWSER_VERSIONS⟩
     ⟨[(str "k", UNKNOWN_SUPPORT)], DEFAULT_BROWSER_VERSIONS, false⟩
     (str "other") none none (str "k") (by decide)⟩

/-- **C7**: resolution never propagates an exception.  A dataset-load
failure or a missing feature key in the tabular resolver yields
all-`unknown` (outside the universally-supported allow-list, which never
consults the dataset); the same holds for the hierarchical resolver on a
load failure or an unnavigable path; and the aggregator, even when both
resolvers throw on every input, still produces a `BrowserSupport` value —
the manual fallback — for an uncached key instead of rejecting. -/
theorem c7_resolution_never_throws :
    (∀ (id : Str) (bv : BrowserVersions),
      id ∉ UNIVERSALLY_SUPPORTED_FEATURES →
      getCanIUseSupport (.error ()) id bv = ⟨.unknown, .unknown, .unknown⟩) ∧
    (∀ (d : CanIUseData) (id : Str) (bv : BrowserVersions),
      id ∉ UNIVERSALLY_SUPPORTED_FEATURES →
      alistLookup d.data id = none →
      getCanIUseSupport (.ok d) id bv = ⟨.unknown, .unknown, .unknown⟩) ∧
    (∀ (p : Str) (bv : BrowserVersions),
      getMdnBcdSupport (.error ()) p bv = ⟨.unknown, .unknown, .unknown, none⟩) ∧
    (∀ (data : BcdNode) (p : Str) (bv : BrowserVersions),
      navigateMdnBcdPath data p = none →
      getMdnBcdSupport (.ok data) p bv = ⟨.unknown, .unknown, .unknown, none⟩) ∧
    (∀ (env : AggregatorEnv) (st : AggregatorState) (f : Str) (c m : Option Str),
      (∀ x v, env.caniuseResolve x v = .error ()) →
      (∀ x v, env.mdnResolve x v = .error ()) →
      alistLookup st.supportCache (c.getD (m.getD f)) = none →
      (loadSupport env st f c m).1
        = (env.manualSupport f).getD UNKNOWN_SUPPORT) := by
  refine ⟨?_, ?_, ?_, ?_, ?_⟩
  · intro id bv hid
    simp [getCanIUseSupport, hid]
  · intro d id bv hid hkey
    simp [getCanIUseSupport, hid, hkey]
  · intro p bv; rfl
  · intro data p bv hnav
    simp [getMdnBcdSupport, hnav]
  · intro env st f c m hcan hmdn hcache
    cases c <;> cases m <;> simp_all [loadSupport]

theorem c7_witness :
    str "nope" ∉ UNIVERSALLY_SUPPORTED_FEATURES ∧
    getCanIUseSupport (.error ()) (str "nope") DEFAULT_BROWSER_VERSIONS
      = ⟨.unknown, .unknown, .unknown⟩ :=
  ⟨by decide,
   c7_resolution_never_throws.1 (str "nope") DEFAULT_BROWSER_VERSIONS
     (by decide)⟩

/-- **C1**: the aggregator resolves via the hierarchical source first and
accepts that result only if at least one browser's level is not `unknown`;
a hierarchical result that is wholly inconclusive (or a thrown
hierarchical resolution, or an absent path) falls through to the tabular
source under the same acceptance gate, and when the tabular result is also
wholly inconclusive the resolution falls back to the manual table. -/
theorem c1_loadSupport_fallback_order :
    (∀ (env : AggregatorEnv) (st : AggregatorState) (f : Str) (c : Option Str)
       (p : Str) (r : MdnSupportResult),
      alistLookup st.supportCache (c.getD p) = none →
      env.mdnResolve p (ensureVersions env st).browserVersions = .ok r →
      hasKnownLevel (mdnToSupport r) = true →
      (loadSupport env st f c (some p)).1 = mdnToSupport r) ∧
    (∀ (env : AggregatorEnv) (st : AggregatorState) (f cid p : Str)
       (r : MdnSupportResult) (t : CanIUseSupportResult),
      alistLookup st.supportCache cid = none →
      env.mdnResolve p (ensureVersions env st).browserVersions = .ok r →
      hasKnownLevel (mdnToSupport r) = false →
      env.caniuseResolve cid (ensureVersions env st).browserVersions = .ok t →
      hasKnownLevel (canIUseToSupport t) = true →
      (loadSupport env st f (some cid) (some p)).1 = canIUseToSupport t) ∧
    (∀ (env : AggregatorEnv) (st : AggregatorState) (f cid p : Str)
       (t : CanIUseSupportResult),
      alistLookup st.supportCache cid = none →
      env.mdnResolve p (ensureVersions env st).browserVersions = .error () →
      env.caniuseResolve cid (ensureVersions env st).browserVersions = .ok t →
      hasKnownLevel (canIUseToSupport t) = true →
      (loadSupport env st f (some cid) (some p)).1 = canIUseToSupport t) ∧
    (∀ (env : AggregatorEnv) (st : AggregatorState) (f cid : Str)
       (t : CanIUseSupportResult),
      alistLookup st.supportCache cid = none →
      env.caniuseResolve cid (ensureVersions env st).browserVersions = .ok t →
      hasKnownLevel (canIUseToSupport t) = true →
      (loadSupport env st f (some cid) none).1 = canIUseToSupport t) ∧
    (∀ (env : AggregatorEnv) (st : AggregatorState) (f cid p : Str)
       (r : MdnSupportResult) (t : CanIUseSupportResult),
      alistLookup st.supportCache cid = none →
      env.mdnResolve p (ensureVersions env st).browserVersions = .ok r →
      hasKnownLevel (mdnToSupport r) = false →
      env.caniuseResolve cid (ensureVersions env st).browserVersions = .ok t →
      hasKnownLevel (canIUseToSupport t) = false →
      (loadSupport env st f (some cid) (some p)).1
        = (env.manualSupport f).getD UNKNOWN_SUPPORT) := by
  refine ⟨?_, ?_, ?_, ?_, ?_⟩
  · intro env st f c p r hcache hres hknown
    cases c <;> simp_all [loadSupport]
  · intro env st f cid p r t hcache hres hknown hcan hknownT
    simp_all [loadSupport]
  · intro env st f cid p t hcache hres hcan hknownT
    simp_all [loadSupport]
  · intro env st f cid t hcache hcan hknownT
    simp_all [loadSupport]
  · intro env st f cid p r t hcache hres hknown hcan hknownT
    simp_all [loadSupport]

theorem c1_witness :
    alistLookup
      (⟨[], DEFAULT_BROWSER_VERSIONS, false⟩ : AggregatorState).supportCache
      ((some (str "cid")).getD (str "p")) = none ∧
    (⟨(fun _ _ => .error ()),
      (fun _ _ => .ok ⟨.supported, .notSupported, .notSupported, none⟩),
      (fun _ => none), DEFAULT_BROWSER_VERSIONS⟩
        : AggregatorEnv).mdnResolve (str "p")
      (ensureVersions
        ⟨(fun _ _ => .error ()),
          (fun _ _ => .ok ⟨.supported, .notSupported, .notSupported, none⟩),
          (fun _ => none), DEFAULT_BROWSER_VERSIONS⟩
        ⟨[], DEFAULT_BROWSER_VERSIONS, false⟩).browserVersions
      = .ok ⟨.supported, .notSupported, .notSupported, none⟩ ∧
    hasKnownLevel
      (mdnToSupport ⟨.supported, .notSupported, .notSupported, none⟩) = true ∧
    (loadSupport
      ⟨(fun _ _ => .error ()),
        (fun _ _ => .ok ⟨.supported, .notSupported, .notSupported, none⟩),
        (fun _ => none), DEFAULT_BROWSER_VERSIONS⟩
      ⟨[], DEFAULT_BROWSER_VERSIONS, false⟩ (str "f") (some (str "cid"))
      (some (str "p"))).1
      = mdnToSupport ⟨.supported, .notSupported, .notSupported, none⟩ :=
  ⟨by decide, by rfl, by decide,
   c1_loadSupport_fallback_order.1
     ⟨(fun _ _ => .error ()),
       (fun _ _ => .ok ⟨.supported, .notSupported, .notSupported, none⟩),
       (fun _ => none), DEFAULT_BROWSER_VERSIONS⟩
     ⟨[], DEFAULT_BROWSER_VERSIONS, false⟩ (str "f") (some (str "cid"))
     (str "p") ⟨.supported, .notSupported, .notSupported, none⟩
     (by decide) (by rfl) (by decide)⟩
